import Mathlib

/-
Verification of the NewsContextGPT retrieval and session subsystem.

Shallow embedding of:
  - src/backend/storage.ts   (vector store: addEmbeddingToVectorStore,
    cosineSimilarity, searchVectorStore; MemStorage article lookup)
  - src/backend/embedding.ts (generateEmbedding, generateFallbackEmbedding)
  - the RAG orchestrator     (processUserQuery)
  - the session cache        (MemoryRedis, addChatToHistory)
  - the websocket transport  (the per-connection message handler)

Numbers: the source computes with IEEE doubles; the embedding idealises
vector components as rationals.  A cosine-similarity score
dot / (sqrt normA * sqrt normB) is represented exactly by the pair
(dot, normA * normB) together with a positivity proof for the divisor, and
interpreted into the reals by SimScore.val.  All comparisons performed by
the source on scores are implemented as exact decidable rational tests and
proved to agree with the real-valued comparisons.
-/

namespace NewsCtx

/-! ### Vectors and cosine similarity (src/backend/storage.ts) -/

/-- Sum of pairwise products, the loop accumulator `dotProduct`. -/
def dotProduct : List ℚ → List ℚ → ℚ
  | a :: as, b :: bs => a * b + dotProduct as bs
  | _, _ => 0

/-- Sum of squares, the loop accumulators `normA` / `normB` before `sqrt`. -/
def sumSq : List ℚ → ℚ
  | [] => 0
  | a :: as => a * a + sumSq as

theorem sumSq_nonneg (l : List ℚ) : 0 ≤ sumSq l := by
  induction l with
  | nil => exact le_refl _
  | cons a as ih => exact add_nonneg (mul_self_nonneg a) ih

theorem sumSq_eq_zero_of_all_zero {l : List ℚ} (h : ∀ x ∈ l, x = 0) :
    sumSq l = 0 := by
  induction l with
  | nil => rfl
  | cons a as ih =>
    have ha : a = 0 := h a (List.mem_cons_self a as)
    have : sumSq as = 0 := ih fun x hx => h x (List.mem_cons_of_mem a hx)
    simp [sumSq, ha, this]

/-- Exact representation of a cosine-similarity score.  The source computes
`dotProduct / (Math.sqrt normA * Math.sqrt normB)`; we carry the numerator
and the square of the divisor, so the represented real value is
`dot / Real.sqrt nsq`.  The positivity field records that the guarded
division is never evaluated with a zero divisor. -/
structure SimScore where
  dot : ℚ
  nsq : ℚ
  nsq_pos : 0 < nsq

/-- The real value of a score: `dot / sqrt nsq`. -/
noncomputable def SimScore.val (s : SimScore) : ℝ :=
  (s.dot : ℝ) / Real.sqrt (s.nsq : ℝ)

/-- `cosineSimilarity` from src/backend/storage.ts.  `none` models the
thrown "Vectors must have the same dimensions" error; the zero-norm guard
returns the score 0 (represented as 0 / sqrt 1). -/
def cosineSimilarity (a b : List ℚ) : Option SimScore :=
  if a.length ≠ b.length then none
  else
    let na := sumSq a
    let nb := sumSq b
    if h : na = 0 ∨ nb = 0 then some ⟨0, 1, one_pos⟩
    else
      some ⟨dotProduct a b, na * nb,
        mul_pos
          (lt_of_le_of_ne (sumSq_nonneg a) (Ne.symm (not_or.mp h).1))
          (lt_of_le_of_ne (sumSq_nonneg b) (Ne.symm (not_or.mp h).2))⟩

/-- Exact decidable test for `score1 < score2` on represented values. -/
def SimScore.blt (s t : SimScore) : Bool :=
  if s.dot < 0 then
    if 0 ≤ t.dot then true
    else decide (t.dot ^ 2 * s.nsq < s.dot ^ 2 * t.nsq)
  else
    if t.dot ≤ 0 then false
    else decide (s.dot ^ 2 * t.nsq < t.dot ^ 2 * s.nsq)

/-- Exact decidable test for `score > 0.5`, the retrieval threshold. -/
def SimScore.bgtHalf (s : SimScore) : Bool :=
  decide (0 < s.dot) && decide (s.nsq < 4 * s.dot ^ 2)

theorem SimScore.sqrt_nsq_pos (s : SimScore) : 0 < Real.sqrt (s.nsq : ℝ) :=
  Real.sqrt_pos.mpr (by exact_mod_cast s.nsq_pos)

theorem SimScore.mul_self_sqrt_nsq (s : SimScore) :
    Real.sqrt (s.nsq : ℝ) * Real.sqrt (s.nsq : ℝ) = (s.nsq : ℝ) :=
  Real.mul_self_sqrt (le_of_lt (by exact_mod_cast s.nsq_pos))

/-- The decidable comparison agrees with the real-valued one. -/
theorem SimScore.blt_iff (s t : SimScore) : s.blt t = true ↔ s.val < t.val := by
  have hsp := s.sqrt_nsq_pos
  have htp := t.sqrt_nsq_pos
  have e1 := s.mul_self_sqrt_nsq
  have e2 := t.mul_self_sqrt_nsq
  have hval : s.val < t.val ↔ (s.dot : ℝ) * Real.sqrt (t.nsq : ℝ) <
      (t.dot : ℝ) * Real.sqrt (s.nsq : ℝ) := by
    unfold SimScore.val
    exact div_lt_div_iff₀ hsp htp
  rw [hval]
  unfold SimScore.blt
  by_cases hA : s.dot < 0
  · rw [if_pos hA]
    by_cases hB : (0 : ℚ) ≤ t.dot
    · rw [if_pos hB]
      simp only [true_iff]
      have h1 : (s.dot : ℝ) * Real.sqrt (t.nsq : ℝ) < 0 :=
        mul_neg_of_neg_of_pos (by exact_mod_cast hA) htp
      have h2 : (0 : ℝ) ≤ (t.dot : ℝ) * Real.sqrt (s.nsq : ℝ) :=
        mul_nonneg (by exact_mod_cast hB) hsp.le
      exact lt_of_lt_of_le h1 h2
    · rw [if_neg hB]
      push_neg at hB
      have hA' : (s.dot : ℝ) < 0 := by exact_mod_cast hA
      have hB' : (t.dot : ℝ) < 0 := by exact_mod_cast hB
      have key : (s.dot : ℝ) * Real.sqrt (t.nsq : ℝ) <
          (t.dot : ℝ) * Real.sqrt (s.nsq : ℝ) ↔
          ((t.dot : ℝ) ^ 2 * (s.nsq : ℝ) < (s.dot : ℝ) ^ 2 * (t.nsq : ℝ)) := by
        constructor
        · intro h
          have hlt : -((t.dot : ℝ) * Real.sqrt (s.nsq : ℝ)) <
              -((s.dot : ℝ) * Real.sqrt (t.nsq : ℝ)) := by linarith
          have hnn : 0 ≤ -((t.dot : ℝ) * Real.sqrt (s.nsq : ℝ)) := by nlinarith
          have hsq := mul_self_lt_mul_self hnn hlt
          nlinarith [hsq]
        · intro h
          by_contra hcon
          push_neg at hcon
          have h1 : (0 : ℝ) < -((s.dot : ℝ) * Real.sqrt (t.nsq : ℝ)) := by
            nlinarith
          have h2 : -((s.dot : ℝ) * Real.sqrt (t.nsq : ℝ)) ≤
              -((t.dot : ℝ) * Real.sqrt (s.nsq : ℝ)) := by linarith
          have hsq := mul_self_le_mul_self (le_of_lt h1) h2
          nlinarith [hsq]
      rw [key]
      simp only [decide_eq_true_eq]
      constructor
      · intro h; exact_mod_cast h
      · intro h; exact_mod_cast h
  · rw [if_neg hA]
    push_neg at hA
    by_cases hB : t.dot ≤ 0
    · rw [if_pos hB]
      constructor
      · intro h; exact absurd h (by simp)
      · intro h
        have h1 : (t.dot : ℝ) * Real.sqrt (s.nsq : ℝ) ≤ 0 :=
          mul_nonpos_of_nonpos_of_nonneg (by exact_mod_cast hB) hsp.le
        have h2 : (0 : ℝ) ≤ (s.dot : ℝ) * Real.sqrt (t.nsq : ℝ) :=
          mul_nonneg (by exact_mod_cast hA) htp.le
        linarith
    · rw [if_neg hB]
      push_neg at hB
      have hA' : (0 : ℝ) ≤ (s.dot : ℝ) := by exact_mod_cast hA
      have hB' : (0 : ℝ) < (t.dot : ℝ) := by exact_mod_cast hB
      have key : (s.dot : ℝ) * Real.sqrt (t.nsq : ℝ) <
          (t.dot : ℝ) * Real.sqrt (s.nsq : ℝ) ↔
          ((s.dot : ℝ) ^ 2 * (t.nsq : ℝ) < (t.dot : ℝ) ^ 2 * (s.nsq : ℝ)) := by
        constructor
        · intro h
          have hnn : 0 ≤ (s.dot : ℝ) * Real.sqrt (t.nsq : ℝ) :=
            mul_nonneg hA' htp.le
          have hsq := mul_self_lt_mul_self hnn h
          nlinarith [hsq]
        · intro h
          by_contra hcon
          push_neg at hcon
          have h1 : (0 : ℝ) < (t.dot : ℝ) * Real.sqrt (s.nsq : ℝ) :=
            mul_pos hB' hsp
          have hsq := mul_self_le_mul_self (le_of_lt h1) hcon
          nlinarith [hsq]
      rw [key]
      simp only [decide_eq_true_eq]
      constructor
      · intro h; exact_mod_cast h
      · intro h; exact_mod_cast h

/-- The decidable threshold test agrees with `0.5 < val`. -/
theorem SimScore.bgtHalf_iff (s : SimScore) :
    s.bgtHalf = true ↔ (1 / 2 : ℝ) < s.val := by
  have hsp := s.sqrt_nsq_pos
  have key : (1 / 2 : ℝ) < s.val ↔
      Real.sqrt (s.nsq : ℝ) < 2 * (s.dot : ℝ) := by
    unfold SimScore.val
    rw [div_lt_div_iff₀ (by norm_num : (0 : ℝ) < 2) hsp]
    constructor <;> intro h <;> linarith
  rw [key]
  constructor
  · intro h
    simp only [SimScore.bgtHalf, Bool.and_eq_true, decide_eq_true_eq] at h
    obtain ⟨h1, h2⟩ := h
    have h1' : (0 : ℝ) < (s.dot : ℝ) := by exact_mod_cast h1
    have h2' : (s.nsq : ℝ) < 4 * (s.dot : ℝ) ^ 2 := by exact_mod_cast h2
    exact (Real.sqrt_lt' (by linarith)).mpr (by nlinarith)
  · intro h
    have hd : (0 : ℝ) < (s.dot : ℝ) := by
      by_contra hn
      push_neg at hn
      have := Real.sqrt_nonneg (s.nsq : ℝ)
      linarith
    have hlt := (Real.sqrt_lt' (by linarith : (0 : ℝ) < 2 * (s.dot : ℝ))).mp h
    simp only [SimScore.bgtHalf, Bool.and_eq_true, decide_eq_true_eq]
    refine ⟨by exact_mod_cast hd, ?_⟩
    have : (s.nsq : ℝ) < 4 * (s.dot : ℝ) ^ 2 := by nlinarith
    exact_mod_cast this

/-! ### The in-memory vector store and searchVectorStore
(src/backend/storage.ts, vector-store section) -/

/-- A vector-store entry (interface `Document` in the source). -/
structure Doc where
  id : ℤ
  articleId : ℤ
  chunkText : String
  embedding : List ℚ
deriving DecidableEq

/-- The projection `searchVectorStore` returns per matching document. -/
structure SearchResult where
  articleId : ℤ
  chunkText : String
deriving DecidableEq

/-- Errors thrown inside the `try` block of `searchVectorStore`:
`cosineSimilarity` throwing on a dimension mismatch, and the explicit
throw when `generateEmbedding` returned null. -/
inductive SearchError where
  | dimensionMismatch
  | embeddingFailed
deriving DecidableEq

/-- A document together with its similarity score
(`{ ...doc, score: cosineSimilarity(queryEmbedding, doc.embedding) }`). -/
structure ScoredDoc where
  doc : Doc
  score : SimScore

/-- The `vectorStore.map(...)` step.  The first dimension mismatch aborts
the whole map with the thrown error, exactly as the exception propagates
out of `Array.prototype.map` in the source. -/
def scoreDocs (qe : List ℚ) : List Doc → Except SearchError (List ScoredDoc)
  | [] => .ok []
  | d :: ds =>
    match cosineSimilarity qe d.embedding with
    | none => .error .dimensionMismatch
    | some s =>
      match scoreDocs qe ds with
      | .error e => .error e
      | .ok rest => .ok (⟨d, s⟩ :: rest)

/-- The sort order used by `results.sort((a, b) => b.score - a.score)`:
`a` may stay before `b` iff `a.score` is not strictly below `b.score`.
ECMAScript guarantees `Array.prototype.sort` is stable, so the sorted
array is the unique stable descending reordering, which is what
`List.insertionSort` with this relation computes. -/
def sortRel (a b : ScoredDoc) : Prop := SimScore.blt a.score b.score = false

instance : DecidableRel sortRel := fun a b => instDecidableEqBool _ _

/-- The body of the `try` block of `searchVectorStore(query, k)`:
score every stored document, sort descending by score, slice the first
`k`, keep only scores above 0.5, and project.  The query embedding is the
result of the external `generateEmbedding` call (`none` models null). -/
def searchVectorStoreTry (store : List Doc) (qeo : Option (List ℚ)) (k : ℕ) :
    Except SearchError (List SearchResult) :=
  match qeo with
  | none => .error .embeddingFailed
  | some qe =>
    match scoreDocs qe store with
    | .error e => .error e
    | .ok scored =>
      .ok ((((scored.insertionSort sortRel).take k).filter
          fun s => s.score.bgtHalf).map
          fun s => ⟨s.doc.articleId, s.doc.chunkText⟩)

/-- `searchVectorStore` with its catch-all handler: any error becomes the
empty result list. -/
def searchVectorStore (store : List Doc) (qeo : Option (List ℚ)) (k : ℕ) :
    List SearchResult :=
  match searchVectorStoreTry store qeo k with
  | .ok r => r
  | .error _ => []

/-! ### Stability of the descending sort

The proofs below track original insertion positions by sorting the
enumerated list with a relation that ignores the index. -/

theorem SimScore.blt_eq_false_iff (s t : SimScore) :
    s.blt t = false ↔ t.val ≤ s.val := by
  rw [← not_lt]
  constructor
  · intro h hc
    rw [← s.blt_iff t] at hc
    simp [h] at hc
  · intro h
    cases hb : s.blt t
    · rfl
    · exact absurd ((s.blt_iff t).mp hb) h

/-- `sortRel` lifted to indexed entries, ignoring the index. -/
def sortRelIdx (a b : ℕ × ScoredDoc) : Prop :=
  SimScore.blt a.2.score b.2.score = false

instance : DecidableRel sortRelIdx := fun a b => instDecidableEqBool _ _

instance : IsTotal (ℕ × ScoredDoc) sortRelIdx :=
  ⟨fun a b => by
    unfold sortRelIdx
    rw [SimScore.blt_eq_false_iff, SimScore.blt_eq_false_iff]
    exact (le_total _ _).symm⟩

instance : IsTrans (ℕ × ScoredDoc) sortRelIdx :=
  ⟨fun a b c hab hbc => by
    unfold sortRelIdx at *
    rw [SimScore.blt_eq_false_iff] at *
    exact le_trans hbc hab⟩

/-- The order the claim asserts on search output: strictly descending
score, or equal score with the earlier-inserted entry first. -/
def stRel (a b : ℕ × ScoredDoc) : Prop :=
  b.2.score.val < a.2.score.val ∨
    (a.2.score.val = b.2.score.val ∧ a.1 < b.1)

theorem pairwise_stRel_orderedInsert (a : ℕ × ScoredDoc) :
    ∀ L : List (ℕ × ScoredDoc), L.Pairwise stRel → L.Sorted sortRelIdx →
      (∀ y ∈ L, a.1 < y.1) →
      (L.orderedInsert sortRelIdx a).Pairwise stRel
  | [], _, _, _ => by simp [stRel]
  | b :: t, hP, hS, hidx => by
    by_cases hab : sortRelIdx a b
    · rw [List.orderedInsert, if_pos hab]
      refine List.pairwise_cons.mpr ⟨?_, hP⟩
      intro z hz
      have hba : b.2.score.val ≤ a.2.score.val :=
        (SimScore.blt_eq_false_iff _ _).mp hab
      have hzb : z.2.score.val ≤ b.2.score.val := by
        rcases List.mem_cons.mp hz with rfl | hzt
        · exact le_refl _
        · exact (SimScore.blt_eq_false_iff _ _).mp
            (List.rel_of_sorted_cons hS z hzt)
      rcases lt_or_eq_of_le (le_trans hzb hba) with hlt | heq
      · exact Or.inl hlt
      · exact Or.inr ⟨heq.symm, hidx z hz⟩
    · rw [List.orderedInsert, if_neg hab]
      refine List.pairwise_cons.mpr ⟨?_, ?_⟩
      · intro z hz
        rcases (List.mem_orderedInsert sortRelIdx).mp hz with rfl | hzt
        · left
          have hblt : SimScore.blt z.2.score b.2.score = true := by
            cases h : SimScore.blt z.2.score b.2.score
            · exact absurd h hab
            · rfl
          exact (SimScore.blt_iff _ _).mp hblt
        · exact (List.pairwise_cons.mp hP).1 z hzt
      · exact pairwise_stRel_orderedInsert a t (List.pairwise_cons.mp hP).2
          hS.of_cons fun y hy => hidx y (List.mem_cons_of_mem b hy)

theorem pairwise_stRel_insertionSort :
    ∀ il : List (ℕ × ScoredDoc), il.Pairwise (fun x y => x.1 < y.1) →
      (il.insertionSort sortRelIdx).Pairwise stRel
  | [], _ => by simp
  | a :: l, h => by
    rw [List.insertionSort]
    refine pairwise_stRel_orderedInsert a _
      (pairwise_stRel_insertionSort l (List.pairwise_cons.mp h).2)
      (List.sorted_insertionSort sortRelIdx l) ?_
    intro y hy
    exact (List.pairwise_cons.mp h).1 y
      ((List.mem_insertionSort sortRelIdx).mp hy)

theorem enum_pairwise_fst_lt {α : Type _} (l : List α) :
    l.enum.Pairwise fun x y => x.1 < y.1 := by
  rw [List.pairwise_iff_getElem]
  intro i j hi hj hij
  simp only [List.getElem_enum]
  simpa using hij

theorem scoreDocs_ok_get (qe : List ℚ) :
    ∀ (store : List Doc) (scored : List ScoredDoc),
      scoreDocs qe store = Except.ok scored →
      ∀ (i : ℕ) (p : ScoredDoc), scored[i]? = some p →
        store[i]? = some p.doc ∧
          cosineSimilarity qe p.doc.embedding = some p.score
  | [], scored, h, i, p, hp => by
    simp only [scoreDocs, Except.ok.injEq] at h
    subst h
    simp at hp
  | d :: ds, scored, h, i, p, hp => by
    simp only [scoreDocs] at h
    cases hc : cosineSimilarity qe d.embedding with
    | none => rw [hc] at h; exact absurd h (by simp)
    | some s =>
      rw [hc] at h
      cases hr : scoreDocs qe ds with
      | error e => rw [hr] at h; exact absurd h (by simp)
      | ok rest =>
        rw [hr] at h
        simp only [Except.ok.injEq] at h
        subst h
        cases i with
        | zero =>
          simp only [List.getElem?_cons_zero, Option.some.injEq] at hp
          subst hp
          exact ⟨by simp, by simpa using hc⟩
        | succ n =>
          simp only [List.getElem?_cons_succ] at hp
          have hrec := scoreDocs_ok_get qe ds rest hr n p hp
          exact ⟨by simpa using hrec.1, hrec.2⟩

theorem searchVectorStore_ok (store : List Doc) (qe : List ℚ) (k : ℕ)
    (scored : List ScoredDoc) (h : scoreDocs qe store = Except.ok scored) :
    searchVectorStore store (some qe) k =
      (((scored.insertionSort sortRel).take k).filter
        fun s => s.score.bgtHalf).map
        fun s => ⟨s.doc.articleId, s.doc.chunkText⟩ := by
  simp only [searchVectorStore, searchVectorStoreTry, h]

/-- C1: `searchVectorStore(query, k)` returns at most `k` results; whenever
the query embedding succeeded and every stored chunk could be scored, the
output is the projection of a selection of store entries each of whose
cosine similarity with the query is strictly above 0.5, listed in
descending similarity order with ties broken by the earlier store
(insertion) position. -/
theorem searchVectorStore_top_k (store : List Doc) (qeo : Option (List ℚ))
    (k : ℕ) :
    (searchVectorStore store qeo k).length ≤ k ∧
    (∀ qe scored, qeo = some qe → scoreDocs qe store = Except.ok scored →
      ∃ sel : List (ℕ × ScoredDoc),
        searchVectorStore store qeo k =
          sel.map (fun p => ⟨p.2.doc.articleId, p.2.doc.chunkText⟩) ∧
        (∀ p ∈ sel, store[p.1]? = some p.2.doc ∧
          cosineSimilarity qe p.2.doc.embedding = some p.2.score ∧
          (1 / 2 : ℝ) < p.2.score.val) ∧
        sel.Pairwise fun p q => q.2.score.val < p.2.score.val ∨
          (p.2.score.val = q.2.score.val ∧ p.1 < q.1)) := by
  constructor
  · cases qeo with
    | none => simp [searchVectorStore, searchVectorStoreTry]
    | some qe =>
      cases hs : scoreDocs qe store with
      | error e => simp [searchVectorStore, searchVectorStoreTry, hs]
      | ok scored =>
        rw [searchVectorStore_ok store qe k scored hs]
        simp only [List.length_map]
        refine le_trans (List.length_filter_le _ _) ?_
        rw [List.length_take]
        exact min_le_left _ _
  · intro qe scored hq hs
    subst hq
    refine ⟨((scored.enum.insertionSort sortRelIdx).take k).filter
      (fun p => p.2.score.bgtHalf), ?_, ?_, ?_⟩
    · rw [searchVectorStore_ok store qe k scored hs]
      have hmap : scored.insertionSort sortRel =
          (scored.enum.insertionSort sortRelIdx).map Prod.snd := by
        have h1 : ∀ a ∈ scored.enum, ∀ b ∈ scored.enum,
            sortRelIdx a b ↔ sortRel a.2 b.2 := fun _ _ _ _ => Iff.rfl
        rw [List.map_insertionSort sortRelIdx sortRel Prod.snd scored.enum h1,
          List.enum_map_snd]
      rw [hmap, ← List.map_take, List.filter_map, List.map_map]
      rfl
    · intro p hp
      have hp1 : p ∈ (scored.enum.insertionSort sortRelIdx).take k :=
        (List.mem_filter.mp hp).1
      have hpf : p.2.score.bgtHalf = true := (List.mem_filter.mp hp).2
      have hp3 : p ∈ scored.enum :=
        (List.mem_insertionSort sortRelIdx).mp (List.mem_of_mem_take hp1)
      have hget : scored[p.1]? = some p.2 := by
        have hpair : (p.1, p.2) ∈ scored.enum := by
          simpa using hp3
        exact List.mk_mem_enum_iff_getElem?.mp hpair
      obtain ⟨hstore, hcos⟩ := scoreDocs_ok_get qe store scored hs p.1 p.2 hget
      exact ⟨hstore, hcos, (SimScore.bgtHalf_iff _).mp hpf⟩
    · have hpw := pairwise_stRel_insertionSort scored.enum
        (enum_pairwise_fst_lt scored)
      have hsub : List.Sublist
          (((scored.enum.insertionSort sortRelIdx).take k).filter
            fun p => p.2.score.bgtHalf)
          (scored.enum.insertionSort sortRelIdx) :=
        (List.filter_sublist _).trans (List.take_sublist k _)
      exact List.Pairwise.sublist hsub hpw

/-! ### Embeddings (src/backend/embedding.ts)

Text is modelled as its list of character code points.  `toLowerCase` is
modelled by the simple per-code-point lowercase mapping (sufficient for
the ASCII range the generator projects onto). -/

/-- Per-code-point lowercasing. -/
def lowerCode (c : ℕ) : ℕ := if 65 ≤ c ∧ c ≤ 90 then c + 32 else c

/-- `generateFallbackEmbedding`: a 128-slot vector, zero everywhere except
at the code of each character occurring in the lower-cased text, where it
holds that character frequency divided by the text length. -/
def generateFallbackEmbedding (text : List ℕ) : List ℚ :=
  let lowered := text.map lowerCode
  (List.range 128).map fun code =>
    if lowered.count code = 0 then 0
    else (lowered.count code : ℚ) / (text.length : ℚ)

/-- `generateEmbedding`: the external provider result is passed in as
`apiResult` (`none` models any failure of the primary path); on failure
the development-mode flag selects the deterministic local fallback, and
every other mode returns null. -/
def generateEmbedding (apiResult : Option (List ℚ)) (devMode : Bool)
    (text : List ℕ) : Option (List ℚ) :=
  match apiResult with
  | some v => some v
  | none => if devMode then some (generateFallbackEmbedding text) else none

/-! ### The RAG orchestrator (processUserQuery in src/backend/rag.ts) -/

/-- The slice of a news article the orchestrator consumes. -/
structure Article where
  id : ℤ
  title : String
deriving DecidableEq

/-- `[...new Set(xs)]`: JavaScript Set iteration is insertion-ordered, so
spreading a Set deduplicates keeping first occurrences. -/
def jsSetDedup (xs : List ℤ) : List ℤ :=
  xs.foldl (fun acc x => if x ∈ acc then acc else acc ++ [x]) []

/-- Specification-side first-occurrence deduplication, stated
independently of the fold above. -/
def firstOccurrences : List ℤ → List ℤ
  | [] => []
  | x :: xs => x :: firstOccurrences (xs.filter fun y => y ≠ x)
termination_by l => l.length
decreasing_by
  simp only [List.length_cons]
  exact Nat.lt_succ_of_le (List.length_filter_le _ _)

/-- The `Promise.all(articleIds.map(id => storage.getNewsArticleById(id)))`
step: resolves ids in order; a rejected lookup rejects the whole batch. -/
def resolveArticles (lookup : ℤ → Except String (Option Article)) :
    List ℤ → Except String (List (Option Article))
  | [] => .ok []
  | i :: is =>
    match lookup i with
    | .error e => .error e
    | .ok a =>
      match resolveArticles lookup is with
      | .error e => .error e
      | .ok rest => .ok (a :: rest)

/-- One entry of the `chat:<sessionId>` interaction log. -/
structure ChatTurn where
  query : String
  response : String
  sources : List String
  timestamp : String
deriving DecidableEq

/-- The in-process fallback cache tier (`memoryCache` in
src/backend/redis.ts), restricted to the chat-history namespace whose
values are lists of turns. -/
def CacheState := String → Option (List ChatTurn)

/-- `MemoryRedis.get`. -/
def memGet (σ : CacheState) (key : String) : Option (List ChatTurn) := σ key

/-- `MemoryRedis.lpush`: create the list if absent, prepend, return the
new length. -/
def memLpush (σ : CacheState) (key : String) (v : ChatTurn) :
    CacheState × ℕ :=
  let l := (σ key).getD []
  (fun k => if k = key then some (v :: l) else σ k, (v :: l).length)

/-- `MemoryRedis.expire` is a no-op on the in-process tier. -/
def memExpire (σ : CacheState) (_key : String) (_seconds : ℕ) :
    CacheState × ℕ := (σ, 1)

/-- `MemoryRedis.del`. -/
def memDel (σ : CacheState) (key : String) : CacheState × ℕ :=
  (fun k => if k = key then none else σ k,
    if (σ key).isSome then 1 else 0)

/-- TTL for chat history, one hour in seconds. -/
def CHAT_HISTORY_TTL : ℕ := 60 * 60

/-- `addChatToHistory`: lpush onto `chat:<sessionId>` then refresh the
TTL.  Its internal catch makes it total. -/
def addChatToHistory (σ : CacheState) (sessionId : String)
    (turn : ChatTurn) : CacheState :=
  let key := "chat:" ++ sessionId
  (memExpire (memLpush σ key turn).1 key CHAT_HISTORY_TTL).1

/-- The external collaborators of the orchestrator: the embedding
provider, the vector store contents, the article lookup and the
generation provider, plus the wall clock read for timestamps.  `Except`
results model collaborator calls that may reject. -/
structure RagEnv where
  embed : String → Option (List ℚ)
  store : List Doc
  getArticle : ℤ → Except String (Option Article)
  gen : String → Except String String
  now : String

/-- The fixed no-context reply of `processUserQuery`. -/
def noInfoMessage : String :=
  "I\x27m sorry, but I couldn\x27t find any relevant information to answer your question. Please try asking a different question about current news events."

/-- The fixed catch-all reply of `processUserQuery`. -/
def errorMessage : String :=
  "I encountered an error while trying to answer your question. Please try again later."

/-- The prompt template of step 4, with the grounding context and the
user question spliced in. -/
def buildPrompt (context query : String) : String :=
  "\n    You are a helpful news assistant that answers questions based on the provided news articles.\n    Be informative, accurate, and objective. Only respond with information that is supported by the provided context.\n    If you don\x27t know the answer, say so clearly rather than making something up.\n\n    Context from news articles:\n    "
    ++ context
    ++ "\n\n    User Question: " ++ query
    ++ "\n    \n    Provide a comprehensive, factual response to the question above using only the information from the context. \n    Do not invent or add information that is not in the provided context.\n    "

/-- The reply record `{ message, sources }`. -/
structure ProcessedQueryResult where
  message : String
  sources : List String
deriving DecidableEq

/-- The body of the `try` block of `processUserQuery`.  The error payload
carries the thrown message together with whether the generation gateway
had already been invoked when the throw happened; the ok payload carries
the reply, the updated cache tier and the same invocation flag. -/
def processUserQueryTry (env : RagEnv) (σ : CacheState)
    (sessionId query : String) :
    Except (String × Bool) (ProcessedQueryResult × CacheState × Bool) :=
  let relevantDocs := searchVectorStore env.store (env.embed query) 5
  if relevantDocs.isEmpty then
    .ok (⟨noInfoMessage, []⟩, σ, false)
  else
    let articleIds := jsSetDedup (relevantDocs.map (·.articleId))
    match resolveArticles env.getArticle articleIds with
    | .error e => .error (e, false)
    | .ok sourceArticles =>
      let validArticles := sourceArticles.filterMap id
      let context :=
        String.intercalate "\n\n" (relevantDocs.map (·.chunkText))
      let prompt := buildPrompt context query
      match env.gen prompt with
      | .error e => .error (e, true)
      | .ok response =>
        let sources := validArticles.map (·.title)
        let σ' := addChatToHistory σ sessionId
          ⟨query, response, sources, env.now⟩
        .ok (⟨response, sources⟩, σ', true)

/-- `processUserQuery` with its catch-all boundary: any thrown error
becomes the fixed error reply with empty sources and the cache untouched. -/
def processUserQuery (env : RagEnv) (σ : CacheState)
    (sessionId query : String) :
    ProcessedQueryResult × CacheState × Bool :=
  match processUserQueryTry env σ sessionId query with
  | .ok r => r
  | .error (_, g) => (⟨errorMessage, []⟩, σ, g)

/-! ### The websocket message handler (src/server/websocket.ts) -/

/-- A stored chat message record (`storage.createChatMessage` argument). -/
structure StoredMsg where
  sessionId : String
  content : String
  isUser : Bool
  sources : Option (List String)
deriving DecidableEq

/-- The chat portion of `MemStorage`: created sessions and the ordered
message log. -/
structure ChatStore where
  sessions : List String
  messages : List StoredMsg
deriving DecidableEq

/-- An inbound websocket frame after the transport delivered it:
either its payload failed `JSON.parse`, or it parsed to an object with
(possibly missing or empty) `sessionId` and `message` fields. -/
inductive InboundFrame where
  | malformed
  | parsed (sessionId : Option String) (message : Option String)

/-- Frames the handler sends back on the originating connection. -/
inductive OutFrame where
  | typing (sessionId : String)
  | bot (sessionId : String) (message : String) (sources : List String)
  | error (message : String)
deriving DecidableEq

/-- JavaScript falsiness of the validated fields: absent or empty. -/
def falsy : Option String → Bool
  | none => true
  | some s => s.isEmpty

/-- Per-connection state: whether the socket is open, the session id
assigned at connect time, the chat storage, the interaction-log cache
tier and the structured-message cache tier. -/
structure ConnState where
  isOpen : Bool
  connSessionId : String
  chatStore : ChatStore
  cache : CacheState
  msgCache : String → Option (List StoredMsg)

/-- `getChatMessagesBySessionId` (filter preserves creation order). -/
def getChatMessagesBySessionId (s : ChatStore) (sid : String) :
    List StoredMsg :=
  s.messages.filter fun m => m.sessionId == sid

/-- `createChatMessage`: append the record, then mirror the session list
into the `chat_messages:<sessionId>` cache key. -/
def createChatMessage (s : ChatStore)
    (mc : String → Option (List StoredMsg)) (m : StoredMsg) :
    ChatStore × (String → Option (List StoredMsg)) :=
  let s' := { s with messages := s.messages ++ [m] }
  let msgs := getChatMessagesBySessionId s' m.sessionId
  (s', fun k =>
    if k = "chat_messages:" ++ m.sessionId then some msgs else mc k)

/-- The `ws.on message` handler: parse, validate, lazily create a session
record on hand-off, store the user message, emit `typing`, run the RAG
pipeline, store the bot message, emit `bot`.  A closed socket processes
nothing. -/
def handleFrame (env : RagEnv) (st : ConnState) (f : InboundFrame) :
    ConnState × List OutFrame :=
  if st.isOpen = false then (st, [])
  else
    match f with
    | .malformed => (st, [.error "Failed to parse message format"])
    | .parsed sido msgo =>
      if falsy sido || falsy msgo then
        (st, [.error "Invalid message format"])
      else
        let sid := sido.getD ""
        let msg := msgo.getD ""
        let store1 :=
          if sid ≠ st.connSessionId ∧ ¬ st.chatStore.sessions.contains sid
          then { st.chatStore with
                  sessions := st.chatStore.sessions ++ [sid] }
          else st.chatStore
        let (store2, mc2) :=
          createChatMessage store1 st.msgCache ⟨sid, msg, true, none⟩
        let (resp, cache2, _) := processUserQuery env st.cache sid msg
        let (store3, mc3) := createChatMessage store2 mc2
          ⟨sid, resp.message, false, some resp.sources⟩
        ({ st with chatStore := store3, cache := cache2, msgCache := mc3 },
          [.typing sid, .bot sid resp.message resp.sources])

/-! ### Concrete fixtures used by the witnesses -/

/-- Two orthogonal unit chunks. -/
def wStore : List Doc := [⟨1, 10, "alpha", [1, 0]⟩, ⟨2, 20, "beta", [0, 1]⟩]

/-- A store whose single chunk has dimension 2. -/
def mismatchStore : List Doc := [⟨1, 1, "chunk", [1, 1]⟩]

/-- A store whose single chunk has dimension 3. -/
def mismatchStore2 : List Doc := [⟨5, 7, "x", [1, 2, 3]⟩]

/-- Environment with an empty index and a failing embedder. -/
def emptyEnv : RagEnv :=
  ⟨fun _ => none, [], fun _ => .ok none, fun _ => .ok "", "t0"⟩

/-- Environment whose generation provider rejects. -/
def failGenEnv : RagEnv :=
  ⟨fun _ => some [1, 0], wStore, fun _ => .ok none,
    fun _ => .error "gen down", "t0"⟩

/-- Environment with duplicate article references and one unresolvable
article id. -/
def sourcesEnv : RagEnv :=
  ⟨fun _ => some [1, 0],
    [⟨1, 10, "alpha", [1, 0]⟩, ⟨2, 10, "alphb", [1, 0]⟩,
      ⟨3, 20, "gamma", [1, 0]⟩],
    fun i =>
      if i = 10 then .ok (some ⟨10, "Title Ten"⟩)
      else if i = 20 then .ok none
      else .error "lookup failed",
    fun _ => .ok "the answer", "t0"⟩

/-- The empty interaction-log cache. -/
def emptyCache : CacheState := fun _ => none

/-- The empty structured-message cache. -/
def emptyMsgCache : String → Option (List StoredMsg) := fun _ => none

def turnA : ChatTurn := ⟨"q1", "r1", [], "t1"⟩

def turnB : ChatTurn := ⟨"q2", "r2", ["s"], "t2"⟩

/-- A freshly connected open websocket connection. -/
def wConn : ConnState := ⟨true, "conn1", ⟨[], []⟩, emptyCache, emptyMsgCache⟩

/-! ### Supporting lemmas for the orchestrator claims -/

theorem searchVectorStore_nil (qeo : Option (List ℚ)) (k : ℕ) :
    searchVectorStore [] qeo k = [] := by
  cases qeo with
  | none => rfl
  | some qe => simp [searchVectorStore, searchVectorStoreTry, scoreDocs]

theorem firstOccurrences_nil : firstOccurrences [] = [] := by
  rw [firstOccurrences.eq_def]

theorem firstOccurrences_cons (x : ℤ) (xs : List ℤ) :
    firstOccurrences (x :: xs) =
      x :: firstOccurrences (xs.filter fun y => y ≠ x) := by
  rw [firstOccurrences.eq_def]

theorem scoreDocs_error_of_mismatch (qe : List ℚ) :
    ∀ store : List Doc,
      (∃ d ∈ store, d.embedding.length ≠ qe.length) →
      scoreDocs qe store = Except.error SearchError.dimensionMismatch
  | [], h => by simp at h
  | d :: ds, h => by
    rcases h with ⟨d0, hmem, hne⟩
    rcases List.mem_cons.mp hmem with rfl | hmem'
    · have hc : cosineSimilarity qe d0.embedding = none := by
        unfold cosineSimilarity
        rw [if_pos (Ne.symm hne)]
      simp [scoreDocs, hc]
    · cases hc : cosineSimilarity qe d.embedding with
      | none => simp [scoreDocs, hc]
      | some s =>
        have hrec := scoreDocs_error_of_mismatch qe ds ⟨d0, hmem', hne⟩
        simp [scoreDocs, hc, hrec]

theorem jsSetDedup_go (xs : List ℤ) :
    ∀ acc : List ℤ,
      xs.foldl (fun acc x => if x ∈ acc then acc else acc ++ [x]) acc =
        acc ++ firstOccurrences (xs.filter fun y => decide (y ∉ acc)) := by
  induction xs with
  | nil => intro acc; simp [firstOccurrences_nil]
  | cons x xs ih =>
    intro acc
    by_cases hx : x ∈ acc
    · rw [List.foldl_cons]
      simp only [if_pos hx]
      rw [ih acc]
      congr 2
      rw [List.filter_cons]
      simp [hx]
    · rw [List.foldl_cons]
      simp only [if_neg hx]
      rw [ih (acc ++ [x])]
      have hd : (decide (x ∉ acc)) = true := by simp [hx]
      have hfilter : (xs.filter fun y => decide (y ∉ acc ++ [x])) =
          ((xs.filter fun y => decide (y ∉ acc)).filter
            fun y => decide (y ≠ x)) := by
        rw [List.filter_filter]
        apply List.filter_congr
        intro y _
        rw [Bool.eq_iff_iff]
        simp only [Bool.and_eq_true, decide_eq_true_eq, ne_eq,
          List.mem_append, List.mem_singleton, not_or]
        tauto
      rw [hfilter, List.filter_cons, if_pos hd, firstOccurrences_cons]
      simp

theorem jsSetDedup_eq_firstOccurrences (xs : List ℤ) :
    jsSetDedup xs = firstOccurrences xs := by
  unfold jsSetDedup
  rw [jsSetDedup_go xs []]
  simp

theorem resolveArticles_ok_filterMap
    (lookup : ℤ → Except String (Option Article)) :
    ∀ (ids : List ℤ) (l : List (Option Article)),
      resolveArticles lookup ids = Except.ok l →
      l.filterMap id = ids.filterMap fun i =>
        match lookup i with
        | .ok (some a) => some a
        | _ => none
  | [], l, h => by
    simp only [resolveArticles, Except.ok.injEq] at h
    subst h
    simp
  | i :: is, l, h => by
    simp only [resolveArticles] at h
    cases hl : lookup i with
    | error e => rw [hl] at h; exact absurd h (by simp)
    | ok a =>
      rw [hl] at h
      cases hr : resolveArticles lookup is with
      | error e => rw [hr] at h; exact absurd h (by simp)
      | ok rest =>
        rw [hr] at h
        simp only [Except.ok.injEq] at h
        subst h
        have hrec := resolveArticles_ok_filterMap lookup is rest hr
        cases a with
        | none => simp [List.filterMap_cons, hl, hrec]
        | some art => simp [List.filterMap_cons, hl, hrec]

theorem memLpush_foldl_get (key : String) :
    ∀ (ts : List ChatTurn) (σ : CacheState) (l : List ChatTurn),
      σ key = some l →
      memGet (ts.foldl (fun s t => (memLpush s key t).1) σ) key =
        some (ts.reverse ++ l)
  | [], σ, l, h => by simpa [memGet] using h
  | t :: ts, σ, l, h => by
    have hstep : ((memLpush σ key t).1) key = some (t :: l) := by
      simp [memLpush, h]
    have hrec := memLpush_foldl_get key ts _ _ hstep
    simpa using hrec

/-- C1 witness: instantiates the search contract on a concrete two-chunk
store and query. -/
theorem searchVectorStore_top_k_witness :
    ∃ sel : List (ℕ × ScoredDoc),
      searchVectorStore wStore (some [1, 0]) 5 =
        sel.map (fun p => ⟨p.2.doc.articleId, p.2.doc.chunkText⟩) ∧
      (∀ p ∈ sel, wStore[p.1]? = some p.2.doc ∧
        cosineSimilarity [1, 0] p.2.doc.embedding = some p.2.score ∧
        (1 / 2 : ℝ) < p.2.score.val) ∧
      sel.Pairwise fun p q => q.2.score.val < p.2.score.val ∨
        (p.2.score.val = q.2.score.val ∧ p.1 < q.1) := by
  obtain ⟨scored, hs⟩ : ∃ sc, scoreDocs [1, 0] wStore = Except.ok sc :=
    ⟨_, by with_unfolding_all rfl⟩
  exact (searchVectorStore_top_k wStore (some [1, 0]) 5).2 [1, 0] scored rfl hs

/-- C2 counterexample: with a stored chunk of dimension 2 and a query
embedding of dimension 1, scoring throws a dimension mismatch inside the
try block, yet the search call returns the empty result list to its
caller instead of failing. -/
theorem searchVectorStore_mismatch_cex :
    searchVectorStoreTry mismatchStore (some [1]) 3 =
      Except.error SearchError.dimensionMismatch ∧
    searchVectorStore mismatchStore (some [1]) 3 = [] := by
  exact ⟨rfl, rfl⟩

/-- C2 (amended): a dimension mismatch between the query embedding and
any stored chunk makes the internal scoring abort with a dimension
mismatch error, but the catch-all in `searchVectorStore` swallows it and
returns the empty result list; the error is not propagated to the
caller. -/
theorem searchVectorStore_mismatch_swallowed (store : List Doc)
    (qe : List ℚ) (k : ℕ)
    (h : ∃ d ∈ store, d.embedding.length ≠ qe.length) :
    searchVectorStoreTry store (some qe) k =
      Except.error SearchError.dimensionMismatch ∧
    searchVectorStore store (some qe) k = [] := by
  have hs := scoreDocs_error_of_mismatch qe store h
  constructor
  · simp [searchVectorStoreTry, hs]
  · simp [searchVectorStore, searchVectorStoreTry, hs]

/-- C2 witness for the amended claim, on a dimension-3 chunk against a
dimension-2 query. -/
theorem searchVectorStore_mismatch_swallowed_witness :
    searchVectorStoreTry mismatchStore2 (some [1, 1]) 4 =
      Except.error SearchError.dimensionMismatch ∧
    searchVectorStore mismatchStore2 (some [1, 1]) 4 = [] :=
  searchVectorStore_mismatch_swallowed mismatchStore2 [1, 1] 4
    ⟨⟨5, 7, "x", [1, 2, 3]⟩, by decide, by decide⟩

/-- C3: when retrieval yields no chunk (in particular on an empty vector
store), `processUserQuery` returns exactly the fixed no-information reply
with empty sources, the cache is untouched, and the generation gateway is
never invoked (the invocation flag is `false`). -/
theorem processUserQuery_no_context (env : RagEnv) (σ : CacheState)
    (sid q : String) :
    (searchVectorStore env.store (env.embed q) 5 = [] →
      processUserQuery env σ sid q = (⟨noInfoMessage, []⟩, σ, false)) ∧
    (env.store = [] →
      processUserQuery env σ sid q = (⟨noInfoMessage, []⟩, σ, false)) := by
  have main : searchVectorStore env.store (env.embed q) 5 = [] →
      processUserQuery env σ sid q = (⟨noInfoMessage, []⟩, σ, false) := by
    intro h
    simp [processUserQuery, processUserQueryTry, h]
  refine ⟨main, fun hst => main ?_⟩
  rw [hst, searchVectorStore_nil]

/-- C3 witness: empty index, failing embedder. -/
theorem processUserQuery_no_context_witness :
    processUserQuery emptyEnv emptyCache "s" "hello" =
      (⟨noInfoMessage, []⟩, emptyCache, false) :=
  (processUserQuery_no_context emptyEnv emptyCache "s" "hello").2 rfl

/-- C4: any exception raised inside the pipeline body is converted at the
orchestrator boundary into the fixed error reply with empty sources; the
function always returns normally, never re-raising. -/
theorem processUserQuery_error_boundary (env : RagEnv) (σ : CacheState)
    (sid q : String) (e : String) (g : Bool)
    (h : processUserQueryTry env σ sid q = Except.error (e, g)) :
    processUserQuery env σ sid q = (⟨errorMessage, []⟩, σ, g) := by
  simp [processUserQuery, h]

/-- C4 witness: the generation provider rejects mid-pipeline. -/
theorem processUserQuery_error_boundary_witness :
    processUserQuery failGenEnv emptyCache "s" "q" =
      (⟨errorMessage, []⟩, emptyCache, true) :=
  processUserQuery_error_boundary failGenEnv emptyCache "s" "q"
    "gen down" true (by with_unfolding_all rfl)

/-- C5: on a non-empty retrieval that completes, the sources list is the
titles of the retrieved chunks' articles with duplicate article ids
removed keeping first-reference order, and with ids resolving to no
article dropped without failing the request. -/
theorem processUserQuery_sources_spec (env : RagEnv) (σ : CacheState)
    (sid q : String) (r : ProcessedQueryResult × CacheState × Bool)
    (hne : searchVectorStore env.store (env.embed q) 5 ≠ [])
    (hok : processUserQueryTry env σ sid q = Except.ok r) :
    (processUserQuery env σ sid q).1.sources =
      ((firstOccurrences
          ((searchVectorStore env.store (env.embed q) 5).map
            (·.articleId))).filterMap fun i =>
        match env.getArticle i with
        | .ok (some a) => some a
        | _ => none).map (·.title) := by
  have hq : processUserQuery env σ sid q = r := by
    simp [processUserQuery, hok]
  rw [hq]
  obtain ⟨d, ds, hl⟩ := List.exists_cons_of_ne_nil hne
  simp only [processUserQueryTry, hl, List.isEmpty_cons, Bool.false_eq_true,
    if_false] at hok
  rw [hl]
  cases hra : resolveArticles env.getArticle
      (jsSetDedup ((d :: ds).map (·.articleId))) with
  | error e => rw [hra] at hok; exact absurd hok (by simp)
  | ok arts =>
    rw [hra] at hok
    cases hg : env.gen (buildPrompt
        (String.intercalate "\n\n" ((d :: ds).map (·.chunkText))) q) with
    | error e => rw [hg] at hok; exact absurd hok (by simp)
    | ok resp =>
      rw [hg] at hok
      simp only [Except.ok.injEq] at hok
      subst hok
      simp only []
      rw [resolveArticles_ok_filterMap env.getArticle _ arts hra,
        jsSetDedup_eq_firstOccurrences]

/-- C5 witness: three chunks referencing article ids 10, 10, 20; id 10
resolves to a title, id 20 resolves to not-found and is dropped. -/
theorem processUserQuery_sources_spec_witness :
    (processUserQuery sourcesEnv emptyCache "s" "q").1.sources =
      ["Title Ten"] := by
  have hsearch : searchVectorStore sourcesEnv.store (sourcesEnv.embed "q") 5 =
      [⟨10, "alpha"⟩, ⟨10, "alphb"⟩, ⟨20, "gamma"⟩] := by
    with_unfolding_all rfl
  obtain ⟨r, hok⟩ : ∃ r, processUserQueryTry sourcesEnv emptyCache "s" "q" =
      Except.ok r := ⟨_, by with_unfolding_all rfl⟩
  rw [processUserQuery_sources_spec sourcesEnv emptyCache "s" "q" r
    (by rw [hsearch]; simp) hok]
  rw [hsearch]
  simp [firstOccurrences_cons, firstOccurrences_nil, sourcesEnv]

/-- C6: cosine similarity on equal-dimension vectors where one side is
all zeros is the score 0 (never a division error), and every score the
function ever produces has a strictly positive divisor. -/
theorem cosineSimilarity_zero_norm (a b : List ℚ) :
    (∀ s, cosineSimilarity a b = some s → 0 < s.nsq) ∧
    (a.length = b.length →
      ((∀ x ∈ a, x = 0) ∨ (∀ x ∈ b, x = 0)) →
      ∃ s, cosineSimilarity a b = some s ∧ s.val = 0) := by
  constructor
  · intro s _
    exact s.nsq_pos
  · intro hlen hz
    have hz' : sumSq a = 0 ∨ sumSq b = 0 :=
      hz.imp sumSq_eq_zero_of_all_zero sumSq_eq_zero_of_all_zero
    refine ⟨⟨0, 1, one_pos⟩, ?_, ?_⟩
    · simp only [cosineSimilarity]
      rw [if_neg (by simp [hlen]), dif_pos hz']
    · unfold SimScore.val
      simp

/-- C6 witness: the zero vector against a non-zero vector of the same
dimension. -/
theorem cosineSimilarity_zero_norm_witness :
    ∃ s, cosineSimilarity [0, 0] [1, 2] = some s ∧ s.val = 0 :=
  (cosineSimilarity_zero_norm [0, 0] [1, 2]).2 rfl (Or.inl (by decide))

/-- C7: the development fallback embedding generator is a deterministic
function of the text: two calls on equal texts return component-wise
equal vectors, and in development mode with a failed provider call the
gateway returns exactly that fallback vector. -/
theorem fallback_embedding_deterministic (t1 t2 : List ℕ) (h : t1 = t2) :
    generateFallbackEmbedding t1 = generateFallbackEmbedding t2 ∧
    generateEmbedding none true t1 = some (generateFallbackEmbedding t2) := by
  subst h
  exact ⟨rfl, rfl⟩

/-- C7 witness on the text "hi". -/
theorem fallback_embedding_deterministic_witness :
    generateFallbackEmbedding [104, 105] =
      generateFallbackEmbedding [104, 105] ∧
    generateEmbedding none true [104, 105] =
      some (generateFallbackEmbedding [104, 105]) :=
  fallback_embedding_deterministic [104, 105] [104, 105] rfl

/-- C8: on the in-process tier, pushing a sequence of turns onto a fresh
key and then reading it back returns exactly the pushed turns newest
first (and nothing at all if nothing was pushed); the same holds through
`addChatToHistory`, whose expire step is a no-op on this tier. -/
theorem memoryRedis_roundtrip :
    (∀ (σ : CacheState) (key : String) (ts : List ChatTurn), σ key = none →
      memGet (ts.foldl (fun s t => (memLpush s key t).1) σ) key =
        if ts.isEmpty then none else some ts.reverse) ∧
    (∀ (σ : CacheState) (sid : String) (ts : List ChatTurn),
      σ ("chat:" ++ sid) = none → ts ≠ [] →
      memGet (ts.foldl (fun s t => addChatToHistory s sid t) σ)
        ("chat:" ++ sid) = some ts.reverse) := by
  have main : ∀ (σ : CacheState) (key : String) (ts : List ChatTurn),
      σ key = none →
      memGet (ts.foldl (fun s t => (memLpush s key t).1) σ) key =
        if ts.isEmpty then none else some ts.reverse := by
    intro σ key ts h
    cases ts with
    | nil => simpa [memGet] using h
    | cons t ts =>
      have hstep : ((memLpush σ key t).1) key = some [t] := by
        simp [memLpush, h]
      have hrec := memLpush_foldl_get key ts _ _ hstep
      simpa using hrec
  refine ⟨main, fun σ sid ts h hne => ?_⟩
  have := main σ ("chat:" ++ sid) ts h
  rw [if_neg (by simpa using hne)] at this
  simpa [addChatToHistory, memExpire] using this

/-- C8 witness: two turns pushed through `addChatToHistory` come back
newest first. -/
theorem memoryRedis_roundtrip_witness :
    memGet ([turnA, turnB].foldl
      (fun s t => addChatToHistory s "s1" t) emptyCache)
      ("chat:" ++ "s1") = some [turnB, turnA] :=
  memoryRedis_roundtrip.2 emptyCache "s1" [turnA, turnB] rfl (by decide)

/-- C9: a frame whose payload is not valid JSON makes the handler send
exactly one error frame, leave the whole connection state (including its
open flag) unchanged, and hence process any subsequent frame exactly as
it would have without the malformed one. -/
theorem malformed_frame_handling (env : RagEnv) (st : ConnState)
    (h : st.isOpen = true) :
    handleFrame env st .malformed =
      (st, [OutFrame.error "Failed to parse message format"]) ∧
    (handleFrame env st .malformed).1.isOpen = true ∧
    ∀ f, handleFrame env (handleFrame env st .malformed).1 f =
      handleFrame env st f := by
  have h1 : handleFrame env st InboundFrame.malformed =
      (st, [OutFrame.error "Failed to parse message format"]) := by
    simp [handleFrame, h]
  exact ⟨h1, by rw [h1]; exact h, fun f => by rw [h1]⟩

/-- C9 witness on a fresh open connection. -/
theorem malformed_frame_handling_witness :
    handleFrame emptyEnv wConn .malformed =
      (wConn, [OutFrame.error "Failed to parse message format"]) :=
  (malformed_frame_handling emptyEnv wConn rfl).1

/-- C10: the fallback embedding always has length exactly 128, every
component lies in the closed interval from 0 to 1, and any index that is
not the code of a character occurring in the lower-cased text holds 0. -/
theorem fallback_embedding_shape (text : List ℕ) :
    (generateFallbackEmbedding text).length = 128 ∧
    (∀ q ∈ generateFallbackEmbedding text, 0 ≤ q ∧ q ≤ 1) ∧
    (∀ i : ℕ, (text.map lowerCode).count i = 0 →
      (generateFallbackEmbedding text).getD i 0 = 0) := by
  refine ⟨?_, ?_, ?_⟩
  · simp [generateFallbackEmbedding]
  · intro q hq
    simp only [generateFallbackEmbedding, List.mem_map, List.mem_range] at hq
    obtain ⟨code, _, rfl⟩ := hq
    by_cases hc : (text.map lowerCode).count code = 0
    · simp [hc]
    · rw [if_neg hc]
      have hcount : 1 ≤ (text.map lowerCode).count code :=
        Nat.one_le_iff_ne_zero.mpr hc
      have hlen : (text.map lowerCode).count code ≤ text.length := by
        have := List.count_le_length code (text.map lowerCode)
        simpa [List.length_map] using this
      have hlenpos : 0 < text.length := le_trans hcount hlen
      constructor
      · positivity
      · rw [div_le_one (by exact_mod_cast hlenpos)]
        exact_mod_cast hlen
  · intro i hi
    by_cases hlt : i < 128
    · rw [List.getD_eq_getElem?_getD]
      simp only [generateFallbackEmbedding, List.getElem?_map,
        List.getElem?_range hlt]
      simp [hi]
    · rw [List.getD_eq_getElem?_getD]
      rw [List.getElem?_eq_none]
      · rfl
      · simpa [generateFallbackEmbedding] using le_of_not_lt hlt

/-- C10 witness on the text "hi": length 128 and a zero slot at code 0. -/
theorem fallback_embedding_shape_witness :
    (generateFallbackEmbedding [104, 105]).length = 128 ∧
    (generateFallbackEmbedding [104, 105]).getD 0 0 = 0 :=
  ⟨(fallback_embedding_shape [104, 105]).1,
    (fallback_embedding_shape [104, 105]).2.2 0 (by decide)⟩

end NewsCtx
